import Mathlib

/-!
Shallow embedding of the ThreadKeeper Context Capture & Session Restoration
Engine, translated from the TypeScript sources:

  - src/main/session/tab-relay-server.ts   (Tab Relay Service)
  - src/main/session/history-collector.ts  (Tab Collector, Browser History Reader)
  - src/main/session/session-store.ts      (Session Store)
  - src/main/main.ts                       (Session Restorer: restore-session IPC)

File-system and HTTP effects are made explicit: the relay's mutable
"latest tabs" snapshot and the store's files are threaded as values, and
each request / operation is a pure state transformer.  `JSON.stringify`
and `JSON.parse` (platform library code) are modelled as an abstract
serialization pair `enc`/`dec`; HMAC-SHA256 is modelled as an abstract
keyed function `hmac`.  Machine strings are Lean `String`s (the sources
only ever treat them as character sequences).
-/

-- ═══════════════════════════════ Data model ═══════════════════════════════

/-- A recorded application window (`session.windows` entries in main.ts). -/
structure WindowInfo where
  name : String
  title : String
deriving DecidableEq, Repr

/-- A collected browser tab (`BrowserTab` in the collector sources). -/
structure BrowserTab where
  url : String
  title : String
  browser : String
deriving DecidableEq, Repr

/-- A browser history entry (`HistoryEntry` in history-collector.ts). -/
structure HistoryEntry where
  url : String
  title : String
  visitedAt : String
  browser : String
deriving DecidableEq, Repr

/-- The transport form a browser extension pushes (`RelayTab`). -/
structure RelayTab where
  url : String
  title : String
  active : Bool
  windowId : Option Nat
deriving DecidableEq, Repr

/-- An entry of the store's `index.json` (`IndexEntry` in session-store.ts). -/
structure IndexEntry where
  id : String
  capturedAt : String
  aiSummary : String
deriving DecidableEq, Repr

/-- A persisted session (`StoredSession` in session-store.ts).  The
`browserTabs` / `browserHistory` / `browserUrls` fields are `Option`s
because a freshly parsed legacy file may lack them (they are backfilled
by `normalizeSession`). -/
structure StoredSession where
  id : String
  capturedAt : String
  windows : List WindowInfo
  clipboard : String
  recentFiles : List String
  browserTabs : Option (List BrowserTab)
  browserHistory : Option (List HistoryEntry)
  browserUrls : Option (List String)
  aiSummary : String
  userNote : String
  approved : Bool
deriving DecidableEq, Repr

/-- The data handed to `saveSession` (TS type `Omit<StoredSession, 'id' | 'capturedAt'>`,
with `browserTabs` and `browserHistory` required as in the TS interface). -/
structure SessionPayload where
  windows : List WindowInfo
  clipboard : String
  recentFiles : List String
  browserTabs : List BrowserTab
  browserHistory : List HistoryEntry
  browserUrls : Option (List String)
  aiSummary : String
  userNote : String
  approved : Bool
deriving DecidableEq, Repr

-- ═══════════════════════ Character / string helpers ═══════════════════════

/-- ASCII lower-casing, modelling `String.prototype.toLowerCase` on the
ASCII process / file names the sources handle. -/
def lowerStr (s : String) : String :=
  ⟨s.data.map Char.toLower⟩

/-- `startsWithChars l p` is true when `p` is an initial segment of `l`. -/
def startsWithChars : List Char → List Char → Bool
  | _, [] => true
  | [], _ :: _ => false
  | c :: cs, p :: ps => c == p && startsWithChars cs ps

/-- The test `/^https?:\/\//.test(u)` used by every collector and by the
restorer's URL pre-filter (case-sensitive, no flags). -/
def startsHttp (u : String) : Bool :=
  startsWithChars u.data ("http://".data) || startsWithChars u.data ("https://".data)

/-- Characters permitted after the first character of a URL scheme
(WHATWG URL: ASCII alphanumeric, `+`, `-`, `.`). -/
def isSchemeChar (c : Char) : Bool :=
  c.isAlphanum || c == '+' || c == '-' || c == '.'

/-- Scheme extraction of the WHATWG `new URL` parser: an ASCII-alpha
first character, scheme characters up to a `:`; the scheme is
lower-cased.  `none` models a parse that throws (no valid scheme).
`parsed.protocol` in the source is this scheme plus `":"`. -/
def parseUrlScheme (s : String) : Option String :=
  match s.data with
  | [] => none
  | c :: rest =>
    if c.isAlpha then
      match rest.dropWhile isSchemeChar with
      | ':' :: _ => some (lowerStr ⟨c :: rest.takeWhile isSchemeChar⟩)
      | _ => none
    else none

/-- `url.replace(/[?#].*$/, '')`: drop everything from the first `?` or
`#` (exact for URLs without line breaks, which is what the history
reader's SQL filter admits). -/
def stripQueryFragment (u : String) : String :=
  ⟨u.data.takeWhile (fun c => !(c == '?') && !(c == '#'))⟩

-- ═══════════════ Keep-first de-duplication (seen-set filter) ═══════════════

/-- The `filter` + mutable `Set` idiom every collector uses for
de-duplication: keep an element when its key has not been seen yet.
`seen` threads the contents of the JS `Set`. -/
def filterFirstByKey {α : Type} (key : α → String) : List α → List String → List α
  | [], _ => []
  | a :: rest, seen =>
    if seen.contains (key a) then filterFirstByKey key rest seen
    else a :: filterFirstByKey key rest (key a :: seen)

-- ══════════════════════════ Tab Relay Service ══════════════════════════

/-- Outcome of `JSON.parse` on a POST /tabs body: a throw, a non-array
JSON value, or an array of pushed tabs. -/
inductive RelayBody where
  | invalid : RelayBody
  | nonArray : RelayBody
  | array : List RelayTab → RelayBody
deriving DecidableEq, Repr

/-- The per-entry validation on POST /tabs:
`t => t.url && /^https?:\/\//.test(t.url)` (a missing / empty `url` is
falsy). -/
def relayTabValid (t : RelayTab) : Bool :=
  !(t.url == "") && startsHttp t.url

/-- State update performed by the POST /tabs end handler: an array body
replaces `latestTabs` with its validated entries; a malformed or
non-array body leaves the snapshot unchanged. -/
def applyPostTabs (latestTabs : List RelayTab) (body : RelayBody) : List RelayTab :=
  match body with
  | .array l => l.filter relayTabValid
  | _ => latestTabs

/-- `isAllowedOrigin` on a present Origin header: the regex
`/^(chrome-extension|moz-extension|extension):\/\//`. -/
def isAllowedOriginStr (o : String) : Bool :=
  startsWithChars o.data ("chrome-extension://".data) ||
  startsWithChars o.data ("moz-extension://".data) ||
  startsWithChars o.data ("extension://".data)

/-- `isAllowedOrigin` from tab-relay-server.ts: `if (!origin) return true`,
otherwise the extension-scheme test. -/
def isAllowedOrigin (origin : Option String) : Bool :=
  match origin with
  | none => true
  | some o => isAllowedOriginStr o

/-- The request-handler guard `if (origin && !isAllowedOrigin(origin))`:
only a present (and, being a JS truthiness test, non-empty) Origin header
can be rejected. -/
def originBlocked (origin : Option String) : Bool :=
  match origin with
  | none => false
  | some o => !(o == "") && !(isAllowedOriginStr o)

/-- Splitting on every single space character, as
`String.prototype.split(' ')` does (empty segments are kept). -/
def splitOnSpaceAux : List Char → List Char → List (List Char)
  | [], cur => [cur.reverse]
  | c :: rest, cur =>
    if c == ' ' then cur.reverse :: splitOnSpaceAux rest []
    else splitOnSpaceAux rest (c :: cur)

/-- The parts of `header.split(' ')`. -/
def headerParts (header : String) : List String :=
  (splitOnSpaceAux header.data []).map (fun cs => ⟨cs⟩)

/-- `isAuthorized`: split the Authorization header on spaces and require
`Bearer <token>` (`parts[0] === 'Bearer' && parts[1] === authToken`; a
missing part compares unequal). -/
def isAuthorized (auth : Option String) (token : String) : Bool :=
  match auth with
  | none => false
  | some header =>
    (headerParts header).get? 0 == some "Bearer" &&
    (headerParts header).get? 1 == some token

/-- An incoming relay request.  `oversized` records whether the body
exceeded the 1 MiB cap (checked while streaming). -/
structure RelayRequest where
  method : String
  path : String
  origin : Option String
  auth : Option String
  body : RelayBody
  oversized : Bool
deriving DecidableEq, Repr

/-- A relay response together with the resulting `latestTabs` state. -/
structure HandlerResult where
  status : Nat
  respBody : String
  latest : List RelayTab
deriving DecidableEq, Repr

/-- The request handler of `startRelayServer`, with the mutable
`latestTabs` and `authToken` threaded explicitly.  Branch order follows
the source: origin rejection, OPTIONS, GET /ping, GET /token,
POST /tabs (401 without bearer, 413 when oversized, else 200 and the
snapshot update), GET /tabs (401 without bearer), 404 otherwise. -/
def handleRequest (latestTabs : List RelayTab) (token : String)
    (req : RelayRequest) : HandlerResult :=
  if originBlocked req.origin then
    ⟨403, "Forbidden", latestTabs⟩
  else if req.method == "OPTIONS" then
    ⟨204, "", latestTabs⟩
  else if req.method == "GET" && req.path == "/ping" then
    ⟨200, "ThreadKeeper relay OK", latestTabs⟩
  else if req.method == "GET" && req.path == "/token" then
    ⟨200, token, latestTabs⟩
  else if req.method == "POST" && req.path == "/tabs" then
    if !(isAuthorized req.auth token) then
      ⟨401, "Unauthorized", latestTabs⟩
    else if req.oversized then
      ⟨413, "Request entity too large", latestTabs⟩
    else
      ⟨200, "ok", applyPostTabs latestTabs req.body⟩
  else if req.method == "GET" && req.path == "/tabs" then
    if !(isAuthorized req.auth token) then
      ⟨401, "Unauthorized", latestTabs⟩
    else
      ⟨200, "json", latestTabs⟩
  else
    ⟨404, "", latestTabs⟩

-- ════════════════════════════ Tab Collector ════════════════════════════

/-- Conversion applied to relay tabs in `collectBrowserTabs`
(`browser: 'chrome'` — the extension runs in a Chromium browser). -/
def relayToBrowserTab (t : RelayTab) : BrowserTab :=
  ⟨t.url, t.title, "chrome"⟩

/-- The de-duplication step of `collectBrowserTabs` (seen-set filter on
the exact `url`). -/
def dedupTabsByUrl (l : List BrowserTab) : List BrowserTab :=
  filterFirstByKey (fun t => t.url) l []

/-- `collectBrowserTabs` from history-collector.ts, with the three
sources supplied as values: the relay snapshot (`getRelayTabs()`), the
debug-protocol tabs and the UI-automation tabs.  A non-empty relay
snapshot is mapped and capped at 30 and returned immediately; otherwise
the debug-protocol result wins outright when non-empty, and the chosen
list is de-duplicated by exact URL and capped at 30. -/
def collectBrowserTabs (relayTabs : List RelayTab)
    (cdpTabs fallbackTabs : List BrowserTab) : List BrowserTab :=
  if relayTabs.length > 0 then
    (relayTabs.map relayToBrowserTab).take 30
  else
    let merged := if cdpTabs.length > 0 then cdpTabs else fallbackTabs
    (dedupTabsByUrl merged).take 30

-- ═══════════════════════ Browser History Reader ═══════════════════════

/-- The history de-duplication key: the URL with query and fragment
stripped. -/
def historyKey (e : HistoryEntry) : String :=
  stripQueryFragment e.url

/-- The cross-profile merge step of `collectBrowserHistory`: the
per-profile query results (each already newest-first and capped by the
SQL `ORDER BY ... DESC LIMIT 60`) are concatenated in candidate-profile
order into `allEntries`, de-duplicated with a seen-set filter on the
normalized URL, and capped at 40. -/
def collectBrowserHistory (profileResults : List (List HistoryEntry)) : List HistoryEntry :=
  (filterFirstByKey historyKey profileResults.flatten []).take 40

-- ════════════════════════════ Session Store ════════════════════════════

/-- The on-disk state of the Session Store: the `<id>.json` session
files, the `<id>.hmac` signature files, and the parsed `index.json`.
File writes prepend (the newest entry shadows an older one of the same
name, matching `fs.writeFileSync` overwrite semantics under the
first-match read below). -/
structure StoreState where
  dataFiles : List (String × List Char)
  hmacFiles : List (String × List Char)
  index : List IndexEntry
deriving DecidableEq, Repr

/-- Reading a file: the first (most recently written) entry under the
name, or `none` when the file does not exist. -/
def fileGet (files : List (String × List Char)) (k : String) : Option (List Char) :=
  match files with
  | [] => none
  | (k2, v) :: rest => if k2 = k then some v else fileGet rest k

/-- Overwriting (or externally tampering with) a session data file. -/
def writeDataFile (st : StoreState) (id : String) (content : List Char) : StoreState :=
  { st with dataFiles := (id, content) :: st.dataFiles }

/-- `normalizeSession`: backfill `browserTabs` from the legacy
`browserUrls` list when absent, and default `browserHistory` to `[]`. -/
def normalizeSession (s : StoredSession) : StoredSession :=
  { s with
    browserTabs := some (match s.browserTabs with
      | some tabs => tabs
      | none => (s.browserUrls.getD []).map (fun url => ⟨url, url, "browser"⟩)),
    browserHistory := some (s.browserHistory.getD []) }

/-- The `StoredSession` value `saveSession` builds:
`{ id: uuidv4(), capturedAt: new Date().toISOString(), ...data }` with
the fresh id and timestamp supplied as parameters. -/
def mkStoredSession (freshId now : String) (d : SessionPayload) : StoredSession :=
  ⟨freshId, now, d.windows, d.clipboard, d.recentFiles, some d.browserTabs,
    some d.browserHistory, d.browserUrls, d.aiSummary, d.userNote, d.approved⟩

/-- `saveSession`: serialize, write `<id>.json`, write the keyed HMAC of
the exact serialized bytes to `<id>.hmac`, prepend an `IndexEntry`, and
return the new state with the stored session.  `enc` models
`JSON.stringify`; `hmac` models `crypto.createHmac('sha256', key)`. -/
def saveSession (enc : StoredSession → List Char)
    (hmac : List Char → List Char → List Char) (key : List Char)
    (st : StoreState) (freshId now : String) (d : SessionPayload) :
    StoreState × StoredSession :=
  let session := mkStoredSession freshId now d
  let sessionJson := enc session
  (⟨(freshId, sessionJson) :: st.dataFiles,
    (freshId, hmac key sessionJson) :: st.hmacFiles,
    ⟨freshId, now, d.aiSummary⟩ :: st.index⟩, session)

/-- `loadSession`: read the file (`none` when missing); when a signature
file exists, recompute the HMAC over the raw bytes and reject on
mismatch; otherwise parse (`dec` models `JSON.parse`, `none` on a parse
throw) and normalize. -/
def loadSession (dec : List Char → Option StoredSession)
    (hmac : List Char → List Char → List Char) (key : List Char)
    (st : StoreState) (id : String) : Option StoredSession :=
  match fileGet st.dataFiles id with
  | none => none
  | some raw =>
    match fileGet st.hmacFiles id with
    | some storedHmac =>
      if storedHmac = hmac key raw then (dec raw).map normalizeSession else none
    | none => (dec raw).map normalizeSession

-- ── Retention pruning ──

/-- The expiry test of `pruneOldSessions`:
`new Date(entry.capturedAt).getTime() < cutoff`.  `parseTime` models
`Date` parsing to epoch milliseconds; an unparseable timestamp gives
`NaN`, whose `<` comparison is false, so the entry is kept. -/
def entryExpired (parseTime : String → Option Int) (cutoff : Int) (e : IndexEntry) : Bool :=
  match parseTime e.capturedAt with
  | some ts => decide (ts < cutoff)
  | none => false

/-- The partition loop of `pruneOldSessions`: expired ids are pushed to
`toRemove`, everything else to `kept`, in index order. -/
def prunePartition (isExpired : IndexEntry → Bool) :
    List IndexEntry → List String × List IndexEntry
  | [] => ([], [])
  | e :: rest =>
    let acc := prunePartition isExpired rest
    if isExpired e then (e.id :: acc.1, acc.2) else (acc.1, e :: acc.2)

/-- `fs.unlinkSync` of the file stored under a name. -/
def eraseFile (files : List (String × List Char)) (k : String) : List (String × List Char) :=
  files.filter (fun p => !(p.1 == k))

/-- The deletion loop of `pruneOldSessions` over the expired ids. -/
def eraseFiles (files : List (String × List Char)) : List String → List (String × List Char)
  | [] => files
  | k :: ks => eraseFiles (eraseFile files k) ks

/-- `pruneOldSessions(maxAgeDays)`: compute the cutoff, partition the
index, delete the `<id>.json` and `<id>.hmac` files of every expired
entry, rewrite the index with the kept entries when anything was
removed, and return the number removed with the new state. -/
def pruneOldSessions (parseTime : String → Option Int) (st : StoreState)
    (nowMs : Int) (maxAgeDays : Int) : Nat × StoreState :=
  let cutoff := nowMs - maxAgeDays * 24 * 60 * 60 * 1000
  let part := prunePartition (entryExpired parseTime cutoff) st.index
  let toRemove := part.1
  let kept := part.2
  let dataFiles := eraseFiles st.dataFiles toRemove
  let hmacFiles := eraseFiles st.hmacFiles toRemove
  let index := if toRemove.length > 0 then kept else st.index
  (toRemove.length, ⟨dataFiles, hmacFiles, index⟩)

-- ═══════════════════════════ Session Restorer ══════════════════════════

/-- One character of the class in `SAFE_PROCESS_NAME = /^[a-zA-Z0-9._\- ]+$/`:
an ASCII letter (`a-zA-Z`), an ASCII digit (`0-9`), dot, underscore,
dash or space. -/
def isSafeChar (c : Char) : Bool :=
  c.isAlpha || c.isDigit || c == '.' || c == '_' || c == '-' || c == ' '

/-- `SAFE_PROCESS_NAME.test(name)`: at least one character, all from the
class (JS `$` without the multiline flag anchors at the very end). -/
def SAFE_PROCESS_NAME (s : String) : Bool :=
  !s.data.isEmpty && s.data.all isSafeChar

/-- `BROWSER_PROCESSES` from the restore-session handler. -/
def BROWSER_PROCESSES : List String :=
  ["msedge", "chrome", "firefox", "brave", "opera", "iexplore", "safari"]

/-- `MAC_SKIP`: macOS system processes never restored. -/
def MAC_SKIP : List String :=
  ["loginwindow", "dock", "finder", "systemuiserver", "spotlight"]

/-- `WIN_SKIP`: Windows shell processes never restored. -/
def WIN_SKIP : List String :=
  ["textinputhost", "applicationframehost", "shellexperiencehost",
   "searchhost", "lockapp", "startmenuexperiencehost",
   "nvidia overlay", "nvcontainer"]

/-- The macOS window-restoration loop: returns, in order, the process
names for which an osascript activate / `open -a` command is issued.
Skips `MAC_SKIP` names, browser processes, names failing
`SAFE_PROCESS_NAME`, and already-seen lower-cased names. -/
def restoreWindowsMacAux : List WindowInfo → List String → List String
  | [], _ => []
  | w :: rest, seen =>
    if MAC_SKIP.contains (lowerStr w.name) then restoreWindowsMacAux rest seen
    else if BROWSER_PROCESSES.contains (lowerStr w.name) then restoreWindowsMacAux rest seen
    else if !(SAFE_PROCESS_NAME w.name) then restoreWindowsMacAux rest seen
    else if seen.contains (lowerStr w.name) then restoreWindowsMacAux rest seen
    else w.name :: restoreWindowsMacAux rest (lowerStr w.name :: seen)

/-- The macOS branch, starting from an empty seen set. -/
def restoreWindowsMac (windows : List WindowInfo) : List String :=
  restoreWindowsMacAux windows []

/-- The Windows window-restoration loop: returns, in order, the process
names passed to the PowerShell focus-or-launch command.  Skips
`WIN_SKIP`; a recorded browser process is NOT skipped but substituted by
the preferred browser; then the `SAFE_PROCESS_NAME` check and the
lower-cased seen-set de-duplication.  `winProcessName` is the substitution
`BROWSER_PROCESSES.has(nameLower) ? preferredBrowser : win.name`. -/
def winProcessName (preferredBrowser : String) (w : WindowInfo) : String :=
  if BROWSER_PROCESSES.contains (lowerStr w.name) then preferredBrowser else w.name

/-- The Windows loop body proper (see `restoreWindowsWin`). -/
def restoreWindowsWinAux (preferredBrowser : String) :
    List WindowInfo → List String → List String
  | [], _ => []
  | w :: rest, seen =>
    if WIN_SKIP.contains (lowerStr w.name) then restoreWindowsWinAux preferredBrowser rest seen
    else if !(SAFE_PROCESS_NAME (winProcessName preferredBrowser w)) then
      restoreWindowsWinAux preferredBrowser rest seen
    else if seen.contains (lowerStr (winProcessName preferredBrowser w)) then
      restoreWindowsWinAux preferredBrowser rest seen
    else winProcessName preferredBrowser w ::
      restoreWindowsWinAux preferredBrowser rest (lowerStr (winProcessName preferredBrowser w) :: seen)

/-- The Windows branch, starting from an empty seen set. -/
def restoreWindowsWin (windows : List WindowInfo) (preferredBrowser : String) : List String :=
  restoreWindowsWinAux preferredBrowser windows []

/-- The URL list the restorer builds: structured tab URLs, then the
legacy flat list, keep-first de-duplicated (`a.indexOf(u) === i`),
pre-filtered by `/^https?:\/\//`, and capped at 20. -/
def restoreTabUrls (browserTabs : Option (List BrowserTab))
    (browserUrls : Option (List String)) : List String :=
  ((filterFirstByKey (fun u => u)
      (((browserTabs.getD []).map (fun t => t.url)) ++ browserUrls.getD []) []).filter
    startsHttp).take 20

/-- The restorer's URL-opening loop.  Each URL is re-parsed; a parse
throw or a non-http(s) protocol skips the URL; `openOk` models whether
the `shell.openExternal` call succeeds (a rejection is caught and the
URL is not counted).  Returns the list of URLs actually opened and the
final `urlsOpened` counter. -/
def openLoop (openOk : String → Bool) : List String → List String × Nat
  | [] => ([], 0)
  | u :: rest =>
    let acc := openLoop openOk rest
    match parseUrlScheme u with
    | some sch =>
      if (sch == "http" || sch == "https") && openOk u then (u :: acc.1, acc.2 + 1)
      else acc
    | none => acc

/-- The whole URL phase of the restore-session handler. -/
def restoreUrls (openOk : String → Bool) (browserTabs : Option (List BrowserTab))
    (browserUrls : Option (List String)) : List String × Nat :=
  openLoop openOk (restoreTabUrls browserTabs browserUrls)

-- ════════════ A concrete executable codec (witness instantiation) ════════════

/-- Unary length marker terminated by a comma (used by the concrete
codec that instantiates the abstract `enc`/`dec` pair in witnesses). -/
def encNat (n : Nat) : List Char :=
  List.replicate n '1' ++ [',']

/-- Length-prefixed character block. -/
def encChars (l : List Char) : List Char :=
  encNat l.length ++ l

/-- Length-prefixed string. -/
def encStr (s : String) : List Char :=
  encChars s.data

/-- One-character boolean. -/
def encBool (b : Bool) : List Char :=
  if b then ['T'] else ['F']

/-- Count-prefixed list. -/
def encList {α : Type} (f : α → List Char) (l : List α) : List Char :=
  encNat l.length ++ (l.map f).flatten

/-- Tagged option. -/
def encOpt {α : Type} (f : α → List Char) : Option α → List Char
  | none => ['N']
  | some a => 'S' :: f a

/-- Serialized window record. -/
def encWindowInfo (w : WindowInfo) : List Char :=
  encStr w.name ++ encStr w.title

/-- Serialized tab record. -/
def encTab (t : BrowserTab) : List Char :=
  encStr t.url ++ encStr t.title ++ encStr t.browser

/-- Serialized history record. -/
def encHist (h : HistoryEntry) : List Char :=
  encStr h.url ++ encStr h.title ++ encStr h.visitedAt ++ encStr h.browser

/-- A concrete injective serialization of `StoredSession`, standing in
for `JSON.stringify` in witnesses. -/
def encSessionEx (s : StoredSession) : List Char :=
  encStr s.id ++ encStr s.capturedAt ++ encList encWindowInfo s.windows ++
  encStr s.clipboard ++ encList encStr s.recentFiles ++
  encOpt (encList encTab) s.browserTabs ++ encOpt (encList encHist) s.browserHistory ++
  encOpt (encList encStr) s.browserUrls ++ encStr s.aiSummary ++ encStr s.userNote ++
  encBool s.approved

/-- Decode a unary length marker. -/
def decNat : List Char → Option (Nat × List Char)
  | [] => none
  | c :: rest =>
    if c == ',' then some (0, rest)
    else if c == '1' then
      match decNat rest with
      | some (n, r) => some (n + 1, r)
      | none => none
    else none

/-- Take exactly `n` characters. -/
def decTake (n : Nat) (l : List Char) : Option (List Char × List Char) :=
  match n, l with
  | 0, l => some ([], l)
  | _ + 1, [] => none
  | n + 1, c :: rest =>
    match decTake n rest with
    | some (xs, r) => some (c :: xs, r)
    | none => none

/-- Decode a length-prefixed block. -/
def decChars (l : List Char) : Option (List Char × List Char) :=
  match decNat l with
  | some (n, r) => decTake n r
  | none => none

/-- Decode a length-prefixed string. -/
def decStr (l : List Char) : Option (String × List Char) :=
  match decChars l with
  | some (cs, r) => some (⟨cs⟩, r)
  | none => none

/-- Decode a boolean. -/
def decBool : List Char → Option (Bool × List Char)
  | c :: r =>
    if c == 'T' then some (true, r)
    else if c == 'F' then some (false, r)
    else none
  | [] => none

/-- Decode `n` consecutive items. -/
def decListAux {α : Type} (f : List Char → Option (α × List Char)) :
    Nat → List Char → Option (List α × List Char)
  | 0, l => some ([], l)
  | n + 1, l =>
    match f l with
    | some (a, r) =>
      match decListAux f n r with
      | some (as, r2) => some (a :: as, r2)
      | none => none
    | none => none

/-- Decode a count-prefixed list. -/
def decList {α : Type} (f : List Char → Option (α × List Char)) (l : List Char) :
    Option (List α × List Char) :=
  match decNat l with
  | some (n, r) => decListAux f n r
  | none => none

/-- Decode a tagged option. -/
def decOpt {α : Type} (f : List Char → Option (α × List Char)) :
    List Char → Option (Option α × List Char)
  | c :: r =>
    if c == 'N' then some (none, r)
    else if c == 'S' then
      match f r with
      | some (a, r2) => some (some a, r2)
      | none => none
    else none
  | [] => none

/-- Decode a window record. -/
def decWindowInfo (l : List Char) : Option (WindowInfo × List Char) :=
  match decStr l with
  | some (n, r1) =>
    match decStr r1 with
    | some (t, r2) => some (⟨n, t⟩, r2)
    | none => none
  | none => none

/-- Decode a tab record. -/
def decTab (l : List Char) : Option (BrowserTab × List Char) :=
  match decStr l with
  | some (u, r1) =>
    match decStr r1 with
    | some (t, r2) =>
      match decStr r2 with
      | some (b, r3) => some (⟨u, t, b⟩, r3)
      | none => none
    | none => none
  | none => none

/-- Decode a history record. -/
def decHist (l : List Char) : Option (HistoryEntry × List Char) :=
  match decStr l with
  | some (u, r1) =>
    match decStr r1 with
    | some (t, r2) =>
      match decStr r2 with
      | some (v, r3) =>
        match decStr r3 with
        | some (b, r4) => some (⟨u, t, v, b⟩, r4)
        | none => none
      | none => none
    | none => none
  | none => none

/-- The concrete deserializer standing in for `JSON.parse` in
witnesses; inverse of `encSessionEx` on its range. -/
def decSessionEx (l : List Char) : Option StoredSession :=
  match decStr l with
  | some (id, r1) =>
    match decStr r1 with
    | some (capturedAt, r2) =>
      match decList decWindowInfo r2 with
      | some (windows, r3) =>
        match decStr r3 with
        | some (clipboard, r4) =>
          match decList decStr r4 with
          | some (recentFiles, r5) =>
            match decOpt (decList decTab) r5 with
            | some (browserTabs, r6) =>
              match decOpt (decList decHist) r6 with
              | some (browserHistory, r7) =>
                match decOpt (decList decStr) r7 with
                | some (browserUrls, r8) =>
                  match decStr r8 with
                  | some (aiSummary, r9) =>
                    match decStr r9 with
                    | some (userNote, r10) =>
                      match decBool r10 with
                      | some (approved, _) =>
                        some ⟨id, capturedAt, windows, clipboard, recentFiles,
                          browserTabs, browserHistory, browserUrls, aiSummary,
                          userNote, approved⟩
                      | none => none
                    | none => none
                  | none => none
                | none => none
              | none => none
            | none => none
          | none => none
        | none => none
      | none => none
    | none => none
  | none => none

/-- A toy keyed digest standing in for HMAC-SHA256 in witnesses (for a
fixed key it is injective, so distinct contents have distinct digests). -/
def hmacEx (key data : List Char) : List Char :=
  key ++ data

-- ═══════════════ Spec-side definitions and concrete fixtures ═══════════════

/-- Modelled from the spec's words (claim C8): the character set the
spec describes for the allow-pattern — "alphanumeric, dot, dash, space
only".  Note it does NOT include the underscore; compare `isSafeChar`,
which is translated from the source regex and does. -/
def claimedSafeChar (c : Char) : Bool :=
  c.isAlpha || c.isDigit || c == '.' || c == '-' || c == ' '

/-- The injection metacharacters the spec requires to be rejected:
semicolon, pipe, backtick (0x60), single quote (0x27), double quote
(0x22). -/
def injectionChars : List Char :=
  [';', '|', Char.ofNat 96, Char.ofNat 39, Char.ofNat 34]

/-- The ids of the index entries `pruneOldSessions` classifies as
expired (spec-side characterization used by the C7 theorem). -/
def expiredIds (parseTime : String → Option Int) (cutoff : Int)
    (index : List IndexEntry) : List String :=
  (index.filter (entryExpired parseTime cutoff)).map (fun e => e.id)

/-- C7 scenario fixture: "now" in epoch milliseconds. -/
def scenNow : Int := 200 * 86400000

/-- C7 scenario fixture: timestamp parsing for the two capture instants,
T-100 days and T-10 days. -/
def scenParse (s : String) : Option Int :=
  if s = "TOLD" then some (scenNow - 100 * 86400000)
  else if s = "TNEW" then some (scenNow - 10 * 86400000)
  else none

/-- C7 scenario fixture: a store holding one session captured 100 days
ago and one captured 10 days ago (data file, signature file and index
entry each). -/
def scenState : StoreState :=
  ⟨[("old1", ['o']), ("new1", ['n'])],
   [("old1", ['p']), ("new1", ['m'])],
   [⟨"old1", "TOLD", ""⟩, ⟨"new1", "TNEW", ""⟩]⟩

/-- C2 witness fixture: a small but fully populated session payload. -/
def payloadEx : SessionPayload :=
  ⟨[⟨"notepad", "notes"⟩], "clip", ["f.txt"],
   [⟨"https://a.example/", "A", "chrome"⟩],
   [⟨"https://h.example/", "H", "2026-01-02T03:04:05.000Z", "chrome"⟩],
   none, "sum", "note", true⟩

/-- C6 fixture: a visit found in the chrome profile (collected first),
the older of the two. -/
def chromeOlderEntry : HistoryEntry :=
  ⟨"https://a.example/p?x=1", "A", "2026-03-01T00:00:00.000Z", "chrome"⟩

/-- C6 fixture: a visit found in the edge profile (collected second),
newer, with the same URL once query and fragment are stripped. -/
def edgeNewerEntry : HistoryEntry :=
  ⟨"https://a.example/p?y=2", "A", "2026-03-01T05:00:00.000Z", "edge"⟩

/-- Strict lexicographic order on character lists. -/
def charListLt : List Char → List Char → Bool
  | [], [] => false
  | [], _ :: _ => true
  | _ :: _, [] => false
  | a :: as, b :: bs => if a < b then true else if b < a then false else charListLt as bs

/-- Chronological comparison of two ISO-8601 timestamps of equal
length (for such strings lexicographic order is time order). -/
def isoBefore (s t : String) : Bool :=
  charListLt s.data t.data

-- ═══════════════════════════════ Lemmas ═══════════════════════════════

theorem openLoop_all_scheme (openOk : String → Bool) (l : List String) :
    ((openLoop openOk l).1).all
      (fun u => parseUrlScheme u == some "http" || parseUrlScheme u == some "https") = true := by
  induction l with
  | nil => rfl
  | cons u rest ih =>
    simp only [openLoop]
    split
    next sch heq =>
      split
      next hc =>
        rw [Bool.and_eq_true] at hc
        obtain ⟨h1, -⟩ := hc
        rw [List.all_cons, ih, Bool.and_true, heq]
        rw [Bool.or_eq_true] at h1
        rcases h1 with h2 | h2
        · rw [beq_iff_eq] at h2
          subst h2
          simp
        · rw [beq_iff_eq] at h2
          subst h2
          simp
      next => exact ih
    next => exact ih

theorem openLoop_count_eq_length (openOk : String → Bool) (l : List String) :
    (openLoop openOk l).2 = (openLoop openOk l).1.length := by
  induction l with
  | nil => rfl
  | cons u rest ih =>
    simp only [openLoop]
    split
    next sch heq =>
      split
      next => simp [ih]
      next => exact ih
    next => exact ih

theorem openLoop_length_le (openOk : String → Bool) (l : List String) :
    (openLoop openOk l).1.length ≤ l.length := by
  induction l with
  | nil => exact Nat.le_refl 0
  | cons u rest ih =>
    simp only [openLoop]
    split
    next sch heq =>
      split
      next => exact Nat.succ_le_succ ih
      next => exact Nat.le_succ_of_le ih
    next => exact Nat.le_succ_of_le ih

theorem restoreTabUrls_length_le (browserTabs : Option (List BrowserTab))
    (browserUrls : Option (List String)) :
    (restoreTabUrls browserTabs browserUrls).length ≤ 20 := by
  simp only [restoreTabUrls]
  exact List.length_take_le 20 _

-- ═══════════════════════════════ Claims ═══════════════════════════════

/-- C1: the Session Restorer opens only URLs whose re-parsed scheme is
`http` or `https`; non-http(s) entries are dropped without aborting the
remaining opens; at most 20 URLs are opened; the reported count equals
the number actually opened; and the concrete stored session with tab
URLs `javascript:alert(1)` and `https://ok.example` yields an opened
count of exactly 1. -/
theorem restore_url_scheme_safety :
    (∀ (tabs : Option (List BrowserTab)) (urls : Option (List String)) (openOk : String → Bool),
      ((restoreUrls openOk tabs urls).1).all
        (fun u => parseUrlScheme u == some "http" || parseUrlScheme u == some "https") = true
      ∧ (restoreUrls openOk tabs urls).2 = (restoreUrls openOk tabs urls).1.length
      ∧ (restoreUrls openOk tabs urls).2 ≤ 20)
    ∧ (restoreUrls (fun _ => true)
        (some [⟨"javascript:alert(1)", "t1", "chrome"⟩, ⟨"https://ok.example", "ok", "chrome"⟩])
        none).2 = 1 := by
  constructor
  · intro tabs urls openOk
    refine ⟨openLoop_all_scheme _ _, openLoop_count_eq_length _ _, ?_⟩
    calc (restoreUrls openOk tabs urls).2
        = (restoreUrls openOk tabs urls).1.length := openLoop_count_eq_length _ _
      _ ≤ (restoreTabUrls tabs urls).length := openLoop_length_le _ _
      _ ≤ 20 := restoreTabUrls_length_le _ _
  · decide

theorem normalizeSession_mk (freshId now : String) (d : SessionPayload) :
    normalizeSession (mkStoredSession freshId now d) = mkStoredSession freshId now d := rfl

/-- C2: Session Store signature integrity.  `load(save(x))` returns `x`
unchanged (carrying the freshly assigned id and capture instant), for
any serialization pair that round-trips on the saved value (as
`JSON.parse`/`JSON.stringify` do).  And flipping any single byte of the
stored session file — the signature file being present — makes `load`
return not-found, provided the keyed digest of the flipped content
differs from that of the original (HMAC-SHA256 collision-freedom at
this pair). -/
theorem session_store_save_load_integrity
    (enc : StoredSession → List Char) (dec : List Char → Option StoredSession)
    (hmac : List Char → List Char → List Char) (key : List Char)
    (st : StoreState) (freshId now : String) (d : SessionPayload)
    (hdec : dec (enc (mkStoredSession freshId now d)) = some (mkStoredSession freshId now d)) :
    loadSession dec hmac key (saveSession enc hmac key st freshId now d).1 freshId
      = some (mkStoredSession freshId now d)
    ∧ ∀ (i : Nat) (b c : Char),
        (enc (mkStoredSession freshId now d)).get? i = some b → c ≠ b →
        hmac key ((enc (mkStoredSession freshId now d)).set i c)
          ≠ hmac key (enc (mkStoredSession freshId now d)) →
        loadSession dec hmac key
          (writeDataFile (saveSession enc hmac key st freshId now d).1 freshId
            ((enc (mkStoredSession freshId now d)).set i c)) freshId = none := by
  constructor
  · simp [saveSession, loadSession, fileGet, hdec, normalizeSession_mk]
  · intro i b c hb hcb hcoll
    have hne : ¬ (hmac key (enc (mkStoredSession freshId now d))
        = hmac key ((enc (mkStoredSession freshId now d)).set i c)) :=
      fun heq => hcoll heq.symm
    simp [saveSession, loadSession, writeDataFile, fileGet, hne]

/-- Witness for C2: the integrity theorem applied to a concrete store,
payload, serialization pair (`encSessionEx`/`decSessionEx`) and keyed
digest (`hmacEx`), with a concrete single-byte flip at offset 0. -/
theorem session_store_save_load_integrity_witness :
    loadSession decSessionEx hmacEx (['k'] : List Char)
        (saveSession encSessionEx hmacEx (['k'] : List Char) ⟨[], [], []⟩ "id1" "t1" payloadEx).1 "id1"
      = some (mkStoredSession "id1" "t1" payloadEx)
    ∧ loadSession decSessionEx hmacEx (['k'] : List Char)
        (writeDataFile
          (saveSession encSessionEx hmacEx (['k'] : List Char) ⟨[], [], []⟩ "id1" "t1" payloadEx).1
          "id1" ((encSessionEx (mkStoredSession "id1" "t1" payloadEx)).set 0 'Z')) "id1"
      = none := by
  have h := session_store_save_load_integrity encSessionEx decSessionEx hmacEx
    (['k'] : List Char) ⟨[], [], []⟩ "id1" "t1" payloadEx (by decide)
  exact ⟨h.1, h.2 0 '1' 'Z' (by decide) (by decide) (by decide)⟩

theorem filterFirstByKey_nodup_keys {α : Type} (key : α → String) (l : List α) :
    ∀ seen : List String,
      ((filterFirstByKey key l seen).map key).Nodup
      ∧ ∀ k ∈ (filterFirstByKey key l seen).map key, seen.contains k = false := by
  induction l with
  | nil => intro seen; exact ⟨List.nodup_nil, by intro k hk; cases hk⟩
  | cons a rest ih =>
    intro seen
    simp only [filterFirstByKey]
    by_cases h : seen.contains (key a) = true
    · rw [if_pos h]
      exact ih seen
    · rw [if_neg h]
      obtain ⟨ihnodup, ihseen⟩ := ih (key a :: seen)
      constructor
      · rw [List.map_cons, List.nodup_cons]
        refine ⟨fun hmem => ?_, ihnodup⟩
        have := ihseen (key a) hmem
        simp [List.contains_cons] at this
      · intro k hk
        rcases List.mem_cons.mp hk with hk1 | hk2
        · subst hk1
          exact Bool.not_eq_true _ ▸ (Bool.eq_false_iff.mpr h)
        · have := ihseen k hk2
          rw [List.contains_cons] at this
          exact (Bool.or_eq_false_iff.mp this).2

/-- Counterexample for C3: the relay path of the Tab Collector does not
de-duplicate — two relay tabs with the same exact URL both appear in the
final output. -/
theorem tab_collector_relay_duplicate_counterexample :
    ¬ ((collectBrowserTabs
          [⟨"https://a.example/x", "A", true, none⟩, ⟨"https://a.example/x", "A", true, none⟩]
          [] []).map (fun t => t.url)).Nodup := by
  decide

/-- C3 (amended): the Tab Collector's final output always has length at
most 30, and it contains no two tabs with the same exact URL whenever
the tabs come from the debug-protocol or UI-automation source (relay
snapshot empty); the relay path returns the relay snapshot capped at 30
without de-duplication. -/
theorem tab_collector_cap_and_dedup :
    ∀ (relayTabs : List RelayTab) (cdpTabs fallbackTabs : List BrowserTab),
      (collectBrowserTabs relayTabs cdpTabs fallbackTabs).length ≤ 30
      ∧ (relayTabs = [] →
          ((collectBrowserTabs relayTabs cdpTabs fallbackTabs).map (fun t => t.url)).Nodup) := by
  intro relayTabs cdpTabs fallbackTabs
  constructor
  · simp only [collectBrowserTabs]
    split
    · exact List.length_take_le 30 _
    · exact List.length_take_le 30 _
  · intro h
    subst h
    have hcond : ¬ (([] : List RelayTab).length > 0) := by simp
    simp only [collectBrowserTabs]
    rw [if_neg hcond, List.map_take]
    exact List.Nodup.sublist (List.take_sublist 30 _)
      ((filterFirstByKey_nodup_keys (fun t : BrowserTab => t.url) _ []).1)

/-- Witness for C3 (amended theorem applied at a concrete input with the
relay empty and a duplicated debug-protocol URL). -/
theorem tab_collector_cap_and_dedup_witness :
    (collectBrowserTabs []
        [⟨"https://a.example/", "A", "chrome"⟩, ⟨"https://a.example/", "B", "chrome"⟩]
        []).length ≤ 30
    ∧ ((collectBrowserTabs []
        [⟨"https://a.example/", "A", "chrome"⟩, ⟨"https://a.example/", "B", "chrome"⟩]
        []).map (fun t => t.url)).Nodup :=
  ⟨(tab_collector_cap_and_dedup []
      [⟨"https://a.example/", "A", "chrome"⟩, ⟨"https://a.example/", "B", "chrome"⟩] []).1,
   (tab_collector_cap_and_dedup []
      [⟨"https://a.example/", "A", "chrome"⟩, ⟨"https://a.example/", "B", "chrome"⟩] []).2 rfl⟩

/-- Counterexample for C4: an accepted `POST /tabs` (status 200) whose
array body is empty leaves the relay snapshot empty, and the Tab
Collector then consults the debug-protocol source — its output equals
the debug-protocol tabs and depends on them — instead of returning the
relay's snapshot. -/
theorem relay_accepted_push_not_authoritative_counterexample :
    (handleRequest [] "tk" ⟨"POST", "/tabs", none, some "Bearer tk", .array [], false⟩).status = 200
    ∧ (handleRequest [] "tk" ⟨"POST", "/tabs", none, some "Bearer tk", .array [], false⟩).latest = []
    ∧ collectBrowserTabs
        (handleRequest [] "tk" ⟨"POST", "/tabs", none, some "Bearer tk", .array [], false⟩).latest
        [⟨"https://b.example/", "B", "chrome"⟩] []
        = [⟨"https://b.example/", "B", "chrome"⟩]
    ∧ collectBrowserTabs
        (handleRequest [] "tk" ⟨"POST", "/tabs", none, some "Bearer tk", .array [], false⟩).latest
        [] [] = [] := by
  decide

/-- C4 (amended): whenever the relay's latest snapshot is non-empty —
in particular after any accepted array push containing at least one
entry that passes URL validation — the Tab Collector returns exactly
that snapshot (converted and capped at 30); the result does not depend
on the debug-protocol or UI-automation inputs, which appear nowhere in
it. -/
theorem relay_nonempty_snapshot_authoritative :
    (∀ (relayTabs : List RelayTab) (cdpTabs fallbackTabs : List BrowserTab),
      relayTabs ≠ [] →
      collectBrowserTabs relayTabs cdpTabs fallbackTabs
        = (relayTabs.map relayToBrowserTab).take 30)
    ∧ (∀ (latestTabs pushed : List RelayTab) (cdpTabs fallbackTabs : List BrowserTab),
      pushed.filter relayTabValid ≠ [] →
      collectBrowserTabs (applyPostTabs latestTabs (RelayBody.array pushed)) cdpTabs fallbackTabs
        = ((pushed.filter relayTabValid).map relayToBrowserTab).take 30) := by
  constructor
  · intro relayTabs cdpTabs fallbackTabs h
    simp only [collectBrowserTabs]
    rw [if_pos (List.length_pos.mpr h)]
  · intro latestTabs pushed cdpTabs fallbackTabs h
    simp only [collectBrowserTabs, applyPostTabs]
    rw [if_pos (List.length_pos.mpr h)]

/-- Witness for C4 (amended theorem applied at a concrete non-empty
relay snapshot and a concrete valid push). -/
theorem relay_nonempty_snapshot_authoritative_witness :
    collectBrowserTabs [⟨"https://a.example/x", "A", true, none⟩]
        [⟨"https://b.example/", "B", "chrome"⟩] [⟨"https://c.example/", "C", "chrome"⟩]
      = ([(⟨"https://a.example/x", "A", true, none⟩ : RelayTab)].map relayToBrowserTab).take 30
    ∧ collectBrowserTabs
        (applyPostTabs [] (RelayBody.array [⟨"https://a.example/x", "A", true, none⟩]))
        [⟨"https://b.example/", "B", "chrome"⟩] []
      = (([(⟨"https://a.example/x", "A", true, none⟩ : RelayTab)].filter
          relayTabValid).map relayToBrowserTab).take 30 :=
  ⟨relay_nonempty_snapshot_authoritative.1 [⟨"https://a.example/x", "A", true, none⟩]
      [⟨"https://b.example/", "B", "chrome"⟩] [⟨"https://c.example/", "C", "chrome"⟩]
      (by decide),
   relay_nonempty_snapshot_authoritative.2 [] [⟨"https://a.example/x", "A", true, none⟩]
      [⟨"https://b.example/", "B", "chrome"⟩] [] (by decide)⟩

theorem restoreWindowsMacAux_no_browser (ws : List WindowInfo) :
    ∀ seen : List String,
      (restoreWindowsMacAux ws seen).all
        (fun c => !(BROWSER_PROCESSES.contains (lowerStr c))) = true := by
  induction ws with
  | nil => intro seen; rfl
  | cons w rest ih =>
    intro seen
    simp only [restoreWindowsMacAux]
    split
    next => exact ih seen
    next =>
      split
      next => exact ih seen
      next hbr =>
        split
        next => exact ih seen
        next =>
          split
          next => exact ih seen
          next =>
            rw [List.all_cons, ih _, Bool.and_true]
            rw [Bool.not_eq_true] at hbr
            rw [hbr]
            rfl

theorem restoreWindowsWinAux_browser_is_preferred (pref : String) (ws : List WindowInfo) :
    ∀ seen : List String,
      (restoreWindowsWinAux pref ws seen).all
        (fun c => !(BROWSER_PROCESSES.contains (lowerStr c)) || c == pref) = true := by
  induction ws with
  | nil => intro seen; rfl
  | cons w rest ih =>
    intro seen
    simp only [restoreWindowsWinAux]
    split
    next => exact ih seen
    next =>
      split
      next => exact ih seen
      next =>
        split
        next => exact ih seen
        next =>
          rw [List.all_cons, ih _, Bool.and_true]
          simp only [winProcessName]
          split
          next => simp
          next hbr =>
            rw [Bool.or_eq_true]
            left
            have hf : BROWSER_PROCESSES.contains (lowerStr w.name) = false :=
              Bool.eq_false_iff.mpr hbr
            rw [hf]
            rfl

/-- Counterexample for C5: on Windows a recorded browser window is NOT
skipped — `restore-session` substitutes the preferred browser and issues
a focus-or-launch command for it; with the stored window `chrome` and
preferred browser `chrome`, a command is issued for the browser process
name `chrome` taken from the stored windows list. -/
theorem restore_windows_browser_not_skipped_counterexample :
    restoreWindowsWin [⟨"chrome", "Docs"⟩] "chrome" = ["chrome"]
    ∧ BROWSER_PROCESSES.contains "chrome" = true := by
  decide

/-- C5 (amended): on macOS every recorded browser window is skipped (no
command is ever issued for a browser process name); on Windows a
recorded browser window is not skipped but replaced by the configured
preferred browser, so the only browser process name a command can ever
be issued for is the preferred browser. -/
theorem restore_windows_browser_handling :
    (∀ ws : List WindowInfo,
      (restoreWindowsMac ws).all
        (fun c => !(BROWSER_PROCESSES.contains (lowerStr c))) = true)
    ∧ (∀ (ws : List WindowInfo) (pref : String),
      (restoreWindowsWin ws pref).all
        (fun c => !(BROWSER_PROCESSES.contains (lowerStr c)) || c == pref) = true) :=
  ⟨fun ws => restoreWindowsMacAux_no_browser ws [],
   fun ws pref => restoreWindowsWinAux_browser_is_preferred pref ws []⟩

/-- C6 (bug exhibited): two history entries from different profiles,
normalizing to the same URL, with the second-profile entry strictly
newer — the cross-profile merge keeps the OLDER chrome entry (profiles
are concatenated in candidate order and the seen-set filter keeps the
first occurrence), although the code's own comment and the spec say the
most recent visit survives. -/
theorem history_merge_keeps_older_entry :
    historyKey chromeOlderEntry = historyKey edgeNewerEntry
    ∧ isoBefore chromeOlderEntry.visitedAt edgeNewerEntry.visitedAt = true
    ∧ collectBrowserHistory [[chromeOlderEntry], [edgeNewerEntry]] = [chromeOlderEntry] := by
  decide

theorem prunePartition_eq (p : IndexEntry → Bool) (l : List IndexEntry) :
    prunePartition p l = ((l.filter p).map (fun e => e.id), l.filter (fun e => !(p e))) := by
  induction l with
  | nil => rfl
  | cons e rest ih =>
    simp only [prunePartition, ih]
    by_cases h : p e = true
    · simp [h]
    · have hf : p e = false := Bool.eq_false_iff.mpr h
      simp [hf]

theorem eraseFiles_eq (ks : List String) :
    ∀ files : List (String × List Char),
      eraseFiles files ks = files.filter (fun p => !(ks.contains p.1)) := by
  induction ks with
  | nil =>
    intro files
    simp [eraseFiles]
  | cons k ks ih =>
    intro files
    simp only [eraseFiles, eraseFile, ih]
    rw [List.filter_filter]
    apply List.filter_congr
    intro a _
    by_cases hk : a.1 = k
    · by_cases hm : a.1 ∈ ks <;> simp [hk, hm, List.contains_cons]
    · by_cases hm : a.1 ∈ ks <;> simp [hk, hm, List.contains_cons]

/-- C7: `prune(maxAgeDays)` removes exactly the index entries whose
`capturedAt` parses to an instant strictly older than now minus
`maxAgeDays` (an unparseable timestamp is kept, as the NaN comparison is
false): it deletes the session file and signature file of every expired
entry, the surviving index is exactly the retained entries in order, and
the returned count is the number removed.  Concretely, with sessions
captured 100 days and 10 days ago and a 90-day horizon, exactly the
100-day-old session is removed from storage and index and the count
is 1. -/
theorem prune_removes_exactly_expired :
    (∀ (parseTime : String → Option Int) (st : StoreState) (nowMs maxAgeDays : Int),
      pruneOldSessions parseTime st nowMs maxAgeDays =
        ((st.index.filter
            (entryExpired parseTime (nowMs - maxAgeDays * 24 * 60 * 60 * 1000))).length,
         ⟨st.dataFiles.filter (fun p =>
            !((expiredIds parseTime (nowMs - maxAgeDays * 24 * 60 * 60 * 1000)
                st.index).contains p.1)),
          st.hmacFiles.filter (fun p =>
            !((expiredIds parseTime (nowMs - maxAgeDays * 24 * 60 * 60 * 1000)
                st.index).contains p.1)),
          st.index.filter (fun e =>
            !(entryExpired parseTime (nowMs - maxAgeDays * 24 * 60 * 60 * 1000) e))⟩))
    ∧ pruneOldSessions scenParse scenState scenNow 90 =
        (1, ⟨[("new1", ['n'])], [("new1", ['m'])], [⟨"new1", "TNEW", ""⟩]⟩) := by
  constructor
  · intro parseTime st nowMs maxAgeDays
    simp only [pruneOldSessions, prunePartition_eq, eraseFiles_eq, expiredIds]
    rw [Prod.ext_iff]
    refine ⟨List.length_map _ _, ?_⟩
    rw [StoreState.mk.injEq]
    refine ⟨rfl, rfl, ?_⟩
    by_cases h0 : ((st.index.filter
        (entryExpired parseTime (nowMs - maxAgeDays * 24 * 60 * 60 * 1000))).map
          (fun e => e.id)).length > 0
    · rw [if_pos h0]
    · rw [if_neg h0]
      rw [List.length_map] at h0
      have hnil : st.index.filter
          (entryExpired parseTime (nowMs - maxAgeDays * 24 * 60 * 60 * 1000)) = [] :=
        List.length_eq_zero.mp (Nat.eq_zero_of_not_pos h0)
      have hall := List.filter_eq_nil_iff.mp hnil
      symm
      apply List.filter_eq_self.mpr
      intro e he
      have : entryExpired parseTime (nowMs - maxAgeDays * 24 * 60 * 60 * 1000) e = false :=
        Bool.eq_false_iff.mpr (hall e he)
      rw [this]
      rfl
  · decide

theorem bnot_isEmpty_of_ne_nil {α : Type} {l : List α} (h : l ≠ []) : (!l.isEmpty) = true := by
  cases l with
  | nil => exact absurd rfl h
  | cons a as => rfl

theorem ne_nil_of_bnot_isEmpty {α : Type} {l : List α} (h : (!l.isEmpty) = true) : l ≠ [] := by
  cases l with
  | nil => exact absurd h (by simp)
  | cons a as => exact fun hc => List.noConfusion hc

theorem isSafeChar_eq_claimed_or_underscore (c : Char) :
    isSafeChar c = (claimedSafeChar c || c == '_') := by
  simp only [isSafeChar, claimedSafeChar]
  cases c.isAlpha <;> cases c.isDigit <;> cases c == '.' <;> cases c == '_' <;>
    cases c == '-' <;> cases c == ' ' <;> rfl

/-- Counterexample for C8: the allow-pattern also accepts the
underscore, which is outside the claim's "alphanumerics, dot, dash, and
space" character set — `my_app` is accepted although it contains a
character not in that set. -/
theorem safe_process_name_underscore_counterexample :
    SAFE_PROCESS_NAME "my_app" = true
    ∧ "my_app".data.all claimedSafeChar = false := by
  decide

/-- C8 (amended): `SAFE_PROCESS_NAME` accepts exactly the non-empty
strings made only of alphanumerics, dot, UNDERSCORE, dash and space;
in particular every string containing a semicolon, pipe, backtick or
quote is rejected, and every non-empty string of only letters, digits,
dot, dash and space is accepted. -/
theorem safe_process_name_charset :
    (∀ s : String, SAFE_PROCESS_NAME s = true ↔
      (s.data ≠ [] ∧ ∀ c ∈ s.data, (claimedSafeChar c || c == '_') = true))
    ∧ (∀ s : String, s.data.any (fun c => injectionChars.contains c) = true →
        SAFE_PROCESS_NAME s = false)
    ∧ (∀ s : String, s.data ≠ [] → (∀ c ∈ s.data, claimedSafeChar c = true) →
        SAFE_PROCESS_NAME s = true) := by
  refine ⟨?_, ?_, ?_⟩
  · intro s
    simp only [SAFE_PROCESS_NAME]
    rw [Bool.and_eq_true, List.all_eq_true]
    constructor
    · rintro ⟨h1, h2⟩
      refine ⟨ne_nil_of_bnot_isEmpty h1, fun c hc => ?_⟩
      rw [← isSafeChar_eq_claimed_or_underscore]
      exact h2 c hc
    · rintro ⟨h1, h2⟩
      refine ⟨bnot_isEmpty_of_ne_nil h1, fun c hc => ?_⟩
      rw [isSafeChar_eq_claimed_or_underscore]
      exact h2 c hc
  · intro s h
    obtain ⟨c, hc, hmemb⟩ := List.any_eq_true.mp h
    have hcs : isSafeChar c = false := by
      have hin : c ∈ injectionChars := by simpa using hmemb
      fin_cases hin <;> decide
    apply Bool.eq_false_iff.mpr
    intro htrue
    rw [SAFE_PROCESS_NAME, Bool.and_eq_true, List.all_eq_true] at htrue
    have hce := htrue.2 c hc
    rw [hcs] at hce
    exact absurd hce (by decide)
  · intro s h1 h2
    simp only [SAFE_PROCESS_NAME]
    rw [Bool.and_eq_true, List.all_eq_true]
    refine ⟨bnot_isEmpty_of_ne_nil h1, fun c hc => ?_⟩
    rw [isSafeChar_eq_claimed_or_underscore, h2 c hc]
    rfl

/-- Witness for C8: the amended characterization applied to concrete
strings — `cmd;rm` (contains a semicolon) is rejected, `notepad.exe`
(letters, digits, dot) is accepted. -/
theorem safe_process_name_charset_witness :
    SAFE_PROCESS_NAME "cmd;rm" = false ∧ SAFE_PROCESS_NAME "notepad.exe" = true :=
  ⟨safe_process_name_charset.2.1 "cmd;rm" (by decide),
   safe_process_name_charset.2.2 "notepad.exe" (by decide) (by decide)⟩

/-- C9 (implicit): a relay request carrying no Origin header is never
rejected by the origin check — no such request receives a 403 — because
`isAllowedOrigin` treats a missing Origin as allowed and the rejection
guard requires a present Origin; consequently a local client that omits
the header reaches every endpoint, in particular `GET /token` returns
the bearer token with status 200 and no authentication. -/
theorem relay_no_origin_never_403 :
    (∀ (latestTabs : List RelayTab) (token : String) (req : RelayRequest),
      req.origin = none → (handleRequest latestTabs token req).status ≠ 403)
    ∧ (∀ (latestTabs : List RelayTab) (token : String) (body : RelayBody),
      handleRequest latestTabs token ⟨"GET", "/token", none, none, body, false⟩
        = ⟨200, token, latestTabs⟩)
    ∧ (∀ (origin : Option String), isAllowedOrigin origin = false → origin ≠ none) := by
  refine ⟨?_, ?_, ?_⟩
  · intro latestTabs token req h
    simp only [handleRequest, h, originBlocked]
    split_ifs <;> simp_all
  · intro latestTabs token body
    rfl
  · intro origin h
    intro hnone
    rw [hnone] at h
    exact absurd h (by decide)

/-- Witness for C9: a concrete Origin-less request is not rejected, and
a concrete Origin-less `GET /token` yields the token with status 200. -/
theorem relay_no_origin_never_403_witness :
    (handleRequest [] "tk" ⟨"GET", "/token", none, none, RelayBody.invalid, false⟩).status ≠ 403
    ∧ handleRequest [] "tk" ⟨"GET", "/token", none, none, RelayBody.invalid, false⟩
        = ⟨200, "tk", []⟩
    ∧ (some "http://evil.example" : Option String) ≠ none :=
  ⟨relay_no_origin_never_403.1 [] "tk" ⟨"GET", "/token", none, none, RelayBody.invalid, false⟩ rfl,
   relay_no_origin_never_403.2.1 [] "tk" RelayBody.invalid,
   relay_no_origin_never_403.2.2 (some "http://evil.example") (by decide)⟩

/-- C10 (implicit): an authorized `POST /tabs` whose body is not valid
JSON, or parses to a non-array value, is answered with status 200 and
leaves the stored latest-tabs snapshot unchanged; only an array body
replaces the snapshot, and then exactly the entries with a non-empty
URL passing the http(s) scheme test survive. -/
theorem relay_post_tabs_body_handling :
    ∀ (latestTabs : List RelayTab) (token : String) (origin auth : Option String)
      (body : RelayBody),
      originBlocked origin = false →
      isAuthorized auth token = true →
      (handleRequest latestTabs token ⟨"POST", "/tabs", origin, auth, body, false⟩).status = 200
      ∧ (handleRequest latestTabs token ⟨"POST", "/tabs", origin, auth, body, false⟩).latest
          = (match body with
             | RelayBody.array l => l.filter (fun t => !(t.url == "") && startsHttp t.url)
             | RelayBody.invalid => latestTabs
             | RelayBody.nonArray => latestTabs) := by
  intro latestTabs token origin auth body horigin hauth
  have hred : handleRequest latestTabs token ⟨"POST", "/tabs", origin, auth, body, false⟩
      = ⟨200, "ok", applyPostTabs latestTabs body⟩ := by
    simp [handleRequest, horigin, hauth]
  rw [hred]
  refine ⟨rfl, ?_⟩
  cases body <;> rfl

/-- Witness for C10: with a valid bearer header, concrete malformed and
array bodies behave as stated. -/
theorem relay_post_tabs_body_handling_witness :
    (handleRequest [⟨"https://old.example/", "O", true, none⟩] "tk"
        ⟨"POST", "/tabs", none, some "Bearer tk", RelayBody.invalid, false⟩).status = 200
    ∧ (handleRequest [⟨"https://old.example/", "O", true, none⟩] "tk"
        ⟨"POST", "/tabs", none, some "Bearer tk", RelayBody.invalid, false⟩).latest
        = [⟨"https://old.example/", "O", true, none⟩] := by
  have h := relay_post_tabs_body_handling [⟨"https://old.example/", "O", true, none⟩] "tk"
    none (some "Bearer tk") RelayBody.invalid (by decide) (by decide)
  exact ⟨h.1, h.2⟩
